import Mathlib

/-!
Shallow embedding of `src/mcp/server.py` (an MCP helper server exposing a
restricted arithmetic evaluator, a Maven process runner and two JaCoCo
coverage-report aggregators), together with theorems checking the
natural-language specification against it.

Modelling conventions:
* Python exceptions become an explicit error type `PyErr`; fallible code
  returns `Except PyErr _`.
* Python numbers (`int` / `float`) become `PyNum`; `float` values are
  idealized as exact rationals (`ℚ`), so float rounding error is not
  modelled.  A power with a non-integer exponent, whose exact value is
  irrational in general, is modelled as the error `PyErr.inexactPow`.
* `ast.parse` is external to the model: the evaluator takes the parsed
  expression tree directly.  Node kinds other than numeric constants,
  unary and binary operations are collapsed into the leaf `PyExpr.other`,
  since `_eval` never looks inside them.
* The filesystem is modelled by passing `Option` values (a missing report
  file is `none`), and the external subprocess outcome is passed in as
  data (`ProcOutcome`).
-/

/-- Python exceptions that the modelled code can raise. -/
inductive PyErr where
  | keyError : PyErr
  | valueError : String → PyErr
  | zeroDivisionError : PyErr
  | runtimeError : String → PyErr
  /-- Modelling artifact: `a ** b` with non-integer exponent produces an
  inexact float (or a complex number) in Python, which the exact rational
  model cannot represent. -/
  | inexactPow : PyErr
deriving DecidableEq, Repr

/-- A Python number: an `int`, or a `float` idealized as an exact rational. -/
inductive PyNum where
  | vint : ℤ → PyNum
  | vfloat : ℚ → PyNum
deriving DecidableEq, Repr

/-- The rational value of a Python number. -/
def PyNum.toQ : PyNum → ℚ
  | .vint n => (n : ℚ)
  | .vfloat q => q

/-- `operator.add` on numbers: `int + int` is an `int`, otherwise a `float`. -/
def pyAdd : PyNum → PyNum → Except PyErr PyNum
  | .vint a, .vint b => .ok (.vint (a + b))
  | a, b => .ok (.vfloat (a.toQ + b.toQ))

/-- `operator.sub` on numbers. -/
def pySub : PyNum → PyNum → Except PyErr PyNum
  | .vint a, .vint b => .ok (.vint (a - b))
  | a, b => .ok (.vfloat (a.toQ - b.toQ))

/-- `operator.mul` on numbers. -/
def pyMul : PyNum → PyNum → Except PyErr PyNum
  | .vint a, .vint b => .ok (.vint (a * b))
  | a, b => .ok (.vfloat (a.toQ * b.toQ))

/-- `operator.truediv`: always true (float) division; raises
`ZeroDivisionError` on a zero divisor (Python raises it for `float`
division as well). -/
def pyDiv (a b : PyNum) : Except PyErr PyNum :=
  if b.toQ = 0 then .error .zeroDivisionError
  else .ok (.vfloat (a.toQ / b.toQ))

/-- `operator.pow`: `int ** nonnegative int` is an `int`; a negative integer
exponent gives a `float` (raising `ZeroDivisionError` on base 0); any other
integer-valued exponent gives a `float`.  A non-integer exponent is outside
the exact model (`PyErr.inexactPow`). -/
def pyPow : PyNum → PyNum → Except PyErr PyNum
  | .vint a, .vint b =>
    if 0 ≤ b then .ok (.vint (a ^ b.toNat))
    else if a = 0 then .error .zeroDivisionError
    else .ok (.vfloat ((a : ℚ) ^ b))
  | a, b =>
    if b.toQ.den = 1 then
      if a.toQ = 0 ∧ b.toQ.num < 0 then .error .zeroDivisionError
      else .ok (.vfloat (a.toQ ^ b.toQ.num))
    else .error .inexactPow

/-- `operator.neg` on numbers. -/
def pyNeg : PyNum → Except PyErr PyNum
  | .vint a => .ok (.vint (-a))
  | .vfloat q => .ok (.vfloat (-q))

/-- Unary operator node kinds of the Python AST. -/
inductive UnOp where
  | uSub | uAdd | boolNot | invert
deriving DecidableEq, Repr

/-- Binary operator node kinds of the Python AST. -/
inductive BinOp where
  | add | sub | mult | div | pow
  | mod | floorDiv | matMult | lShift | rShift | bitOr | bitXor | bitAnd
deriving DecidableEq, Repr

/-- Expression node kinds outside {Number, UnaryOp, BinOp}; `_eval` rejects
them without inspecting their children, so they are modelled as leaves. -/
inductive OtherKind where
  | name | call | attribute | boolOp | compare | constStr | constBool | constNone
deriving DecidableEq, Repr

/-- A parsed Python expression, as consumed by `_eval`. -/
inductive PyExpr where
  | num : PyNum → PyExpr
  | unaryOp : UnOp → PyExpr → PyExpr
  | binOp : PyExpr → BinOp → PyExpr → PyExpr
  | other : OtherKind → PyExpr
deriving DecidableEq, Repr

/-- The `_ALLOWED` table, restricted to unary operator keys: only
`ast.USub ↦ operator.neg` is present. -/
def ALLOWED_unary : UnOp → Option (PyNum → Except PyErr PyNum)
  | .uSub => some pyNeg
  | _ => none

/-- The `_ALLOWED` table, restricted to binary operator keys:
`Add ↦ add`, `Sub ↦ sub`, `Mult ↦ mul`, `Div ↦ truediv`, `Pow ↦ pow`. -/
def ALLOWED_binary : BinOp → Option (PyNum → PyNum → Except PyErr PyNum)
  | .add => some pyAdd
  | .sub => some pySub
  | .mult => some pyMul
  | .div => some pyDiv
  | .pow => some pyPow
  | _ => none

/-- `_eval` from `server.py`: numeric constants evaluate to themselves;
unary and binary nodes look their operator up in `_ALLOWED` (a missing key
raises `KeyError` before the operands are evaluated, as in Python); every
other node kind raises `ValueError("unsupported expression")`. -/
def pyEval : PyExpr → Except PyErr PyNum
  | .num v => .ok v
  | .unaryOp o e =>
    match ALLOWED_unary o with
    | none => .error .keyError
    | some f => do f (← pyEval e)
  | .binOp l o r =>
    match ALLOWED_binary o with
    | none => .error .keyError
    | some f => do f (← pyEval l) (← pyEval r)
  | .other _ => .error (.valueError "unsupported expression")

/-- `float(v)` applied to a number. -/
def pyFloat (v : PyNum) : PyNum := .vfloat v.toQ

/-- `calc` from `server.py`, applied to the already-parsed expression body:
`float(_eval(tree.body))`. -/
def calcEval (t : PyExpr) : Except PyErr PyNum := do
  let v ← pyEval t
  .ok (pyFloat v)

/-! ## XML element model (ElementTree) -/

/-- An XML element: tag, attribute dictionary (first match wins, as in a
Python dict rendered as an association list), and child elements in
document order. -/
inductive Elem where
  | mk (tag : String) (attrs : List (String × String)) (children : List Elem)

/-- The tag of an element. -/
def Elem.tag : Elem → String
  | .mk t _ _ => t

/-- The attribute dictionary of an element. -/
def Elem.attrs : Elem → List (String × String)
  | .mk _ a _ => a

/-- The child elements, in document order. -/
def Elem.children : Elem → List Elem
  | .mk _ _ c => c

/-- All elements of a forest in document (preorder) order: each root
followed by its descendants.  `iterfind(".//tag")` on an element is the
tag-filter of `descAll` applied to its children. -/
def descAll : List Elem → List Elem
  | [] => []
  | .mk t a cs :: rest => .mk t a cs :: (descAll cs ++ descAll rest)

/-- The proper descendants of an element in document order, i.e. the
search space of `iterfind(".//...")`. -/
def descendantsOf (e : Elem) : List Elem := descAll e.children

/-- `elem.iterfind(".//counter")`: all descendant `counter` elements in
document order. -/
def iterfindCounter (e : Elem) : List Elem :=
  (descendantsOf e).filter (fun c => c.tag == "counter")

/-- `elem.attrib[k]`: a missing key raises `KeyError`. -/
def attrStr (e : Elem) (k : String) : Except PyErr String :=
  match e.attrs.lookup k with
  | some s => .ok s
  | none => .error .keyError

/-- Decimal digits, for modelling `int(...)` on attribute text. -/
def digitVal (c : Char) : Option ℕ :=
  if '0' ≤ c ∧ c ≤ '9' then some (c.toNat - '0'.toNat) else none

/-- Accumulating decimal parser over the characters of a string. -/
def decNatCore : List Char → ℕ → Option ℕ
  | [], acc => some acc
  | c :: l, acc =>
    match digitVal c with
    | some d => decNatCore l (acc * 10 + d)
    | none => none

/-- Python `int(s)` restricted to the nonnegative decimal literals that
appear as JaCoCo `covered` / `missed` attribute values (signs, whitespace
and other bases are not modelled). -/
def pyIntNonneg (s : String) : Option ℕ :=
  match s.data with
  | [] => none
  | l => decNatCore l 0

/-- `int(elem.attrib[k])`: `KeyError` on a missing key, `ValueError` when
the text is not a decimal numeral. -/
def attrNat (e : Elem) (k : String) : Except PyErr ℕ := do
  match pyIntNonneg (← attrStr e k) with
  | some n => .ok n
  | none => .error (.valueError "invalid literal for int() with base 10")

/-! ## Coverage aggregation (`maven_test_and_report`) -/

/-- A running covered/missed pair of one counter kind. -/
structure CounterPair where
  covered : ℕ
  missed : ℕ
deriving DecidableEq, Repr

/-- The accumulator dict `{"LINE": {...}, "BRANCH": {...}}`. -/
structure Counters where
  line : CounterPair
  branch : CounterPair
deriving DecidableEq, Repr

/-- One step of the counter-summing loop: read `type` (every counter is
inspected), and when it is `LINE` or `BRANCH` add its `covered` and
`missed` counts to the accumulator; other types are skipped. -/
def addCounter (acc : Counters) (c : Elem) : Except PyErr Counters := do
  let t ← attrStr c "type"
  if t = "LINE" then
    let cov ← attrNat c "covered"
    let mis ← attrNat c "missed"
    .ok ⟨⟨acc.line.covered + cov, acc.line.missed + mis⟩, acc.branch⟩
  else if t = "BRANCH" then
    let cov ← attrNat c "covered"
    let mis ← attrNat c "missed"
    .ok ⟨acc.line, ⟨acc.branch.covered + cov, acc.branch.missed + mis⟩⟩
  else
    .ok acc

/-- The `for c in tree.iterfind(".//counter")` summation loop of
`maven_test_and_report`, over every counter element anywhere in the
document. -/
def sumCounters (root : Elem) : Except PyErr Counters :=
  (iterfindCounter root).foldlM addCounter ⟨⟨0, 0⟩, ⟨0, 0⟩⟩

/-- Round-half-even (Python `round`) of the fraction `n / d` (`d ≠ 0`),
over naturals. -/
def roundHalfEven (n d : ℕ) : ℕ :=
  let f := n / d
  let r := n % d
  if 2 * r < d then f
  else if d < 2 * r then f + 1
  else if f % 2 = 0 then f else f + 1

/-- `round(100.0 * cov / (cov + mis), 2)` under exact rational arithmetic:
round half-even at the second decimal.  (Python rounds the nearest binary
float; ties and representation error are idealized away.) -/
def round2pct (cov mis : ℕ) : ℚ :=
  (roundHalfEven (10000 * cov) (cov + mis) : ℚ) / 100

/-- The local helper `pct` of `maven_test_and_report`: percentage of a
summed counter kind, `0.0` when there were no counts at all. -/
def pct (p : CounterPair) : ℚ :=
  if p.covered + p.missed = 0 then 0 else round2pct p.covered p.missed

/-- Result of `maven_test_and_report`: the build's exit code and the
summary dict (empty when the report file was missing). -/
structure MTRResult where
  returncode : ℤ
  summary : List (String × ℚ)
deriving DecidableEq, Repr

/-- `maven_test_and_report`, with the external world passed in: `rc` is the
Maven subprocess exit code and `report?` is the parsed report when
`jacoco.xml` exists.  With no report the summary dict stays empty; no
exception is raised on that path. -/
def maven_test_and_report (rc : ℤ) (report? : Option Elem) : Except PyErr MTRResult :=
  match report? with
  | none => .ok ⟨rc, []⟩
  | some root => do
    let cs ← sumCounters root
    .ok ⟨rc, [("line_coverage_pct", pct cs.line), ("branch_coverage_pct", pct cs.branch)]⟩

/-! ## `uncovered_classes` -/

/-- The inner loop of `uncovered_classes`: scan the descendant counters of
a class element, and at the first one of type `LINE` return its rounded
percentage (`0.0` for an empty denominator), stopping there; if no `LINE`
counter occurs, the initial `line_cov = 0.0` survives. -/
def firstLineCov : List Elem → Except PyErr ℚ
  | [] => .ok 0
  | c :: rest => do
    let t ← attrStr c "type"
    if t = "LINE" then
      let cov ← attrNat c "covered"
      let mis ← attrNat c "missed"
      .ok (if cov + mis = 0 then 0 else round2pct cov mis)
    else
      firstLineCov rest

/-- The per-class line coverage computed by `uncovered_classes`, over
`cls.iterfind(".//counter")`. -/
def classLineCov (cls : Elem) : Except PyErr ℚ :=
  firstLineCov (iterfindCounter cls)

/-- `name.replace("/", ".")` (the pattern is a single character, so this is
a per-character substitution). -/
def dotted (s : String) : String :=
  ⟨s.data.map (fun c => if c = '/' then '.' else c)⟩

/-- One step of the class loop: read the `name` attribute, convert it to
dotted form, compute the class line coverage, and append the record when
it is strictly below the threshold. -/
def classStep (threshold : ℚ) (low : List (String × ℚ)) (cls : Elem) :
    Except PyErr (List (String × ℚ)) := do
  let name ← attrStr cls "name"
  let line_cov ← classLineCov cls
  if line_cov < threshold then
    .ok (low ++ [(dotted name, line_cov)])
  else
    .ok low

/-- `uncovered_classes`: raises
`RuntimeError("Run maven_test_and_report first.")` when the report file
does not exist, otherwise folds `classStep` over
`tree.iterfind(".//class")` in document order. -/
def uncovered_classes (threshold : ℚ) (report? : Option Elem) :
    Except PyErr (List (String × ℚ)) :=
  match report? with
  | none => .error (.runtimeError "Run maven_test_and_report first.")
  | some root =>
    (((descendantsOf root).filter (fun e => e.tag == "class")).foldlM
      (classStep threshold) [])

/-! ## Process runner (`_run`, Maven wrappers) -/

/-- Resolved project root; absolute-path resolution is environment
specific and opaque to every claim. -/
def PROJECT_ROOT : String := "PROJECT_ROOT"

/-- `POM_PATH = os.path.join(PROJECT_ROOT, "codebase", "pom.xml")`. -/
def POM_PATH : String := PROJECT_ROOT ++ "/codebase/pom.xml"

/-- The outcome of the external subprocess, supplied by the environment:
exit code and captured streams (`None` becomes the empty string via
`or ""`). -/
structure ProcOutcome where
  returncode : ℤ
  stdout : Option String
  stderr : Option String

/-- The structured dict returned by `_run`. -/
structure RunResult where
  command : String
  cwd : String
  returncode : ℤ
  stdout_tail : String
  stderr_tail : String
deriving DecidableEq, Repr

/-- Python `s[-n:]`: the last `n` characters (the whole string when it is
shorter). -/
def strTail (n : ℕ) (s : String) : String :=
  ⟨s.data.drop (s.data.length - n)⟩

/-- `_run` from `server.py`: runs the command (outcome `proc` supplied by
the environment) and returns structured data — never an exception,
whatever the exit code.  Output tails keep the last 2000 characters. -/
def _run (cmd : List String) (cwd : Option String) (proc : ProcOutcome) : RunResult :=
  let out := proc.stdout.getD ""
  let err := proc.stderr.getD ""
  { command := " ".intercalate cmd
    cwd := cwd.getD PROJECT_ROOT
    returncode := proc.returncode
    stdout_tail := strTail 2000 out
    stderr_tail := strTail 2000 err }

/-- `run_maven`: builds the Maven command line (`mvnPath` models
`shutil.which("mvn") or "mvn"`) and delegates to `_run`. -/
def run_maven (mvnPath : String) (test_filter : Option String) (goals : String)
    (proc : ProcOutcome) : RunResult :=
  let cmd := ["cmd", "/c", mvnPath, "-f", POM_PATH] ++
    (match test_filter with
     | some f => ["-Dtest=" ++ f]
     | none => []) ++ [goals]
  _run cmd none proc

/-- `maven_test`: `run_maven` with goal `"test"`. -/
def maven_test (mvnPath : String) (test_filter : Option String)
    (proc : ProcOutcome) : RunResult :=
  run_maven mvnPath test_filter "test" proc

/-- `maven_test_tool`: the MCP tool wrapper; an empty filter string is
passed on as `None` (`test_filter or None`). -/
def maven_test_tool (mvnPath : String) (test_filter : String)
    (proc : ProcOutcome) : RunResult :=
  maven_test mvnPath (if test_filter = "" then none else some test_filter) proc

/-! ## Specification-side definitions

These re-state, in the spec's own words, what the code is claimed to
compute; the theorems below compare them with the source-derived
definitions above. -/

/-- All descendant counter elements of `e` whose `type` attribute is
`kind`. -/
def specCountersOf (kind : String) (e : Elem) : List Elem :=
  (descendantsOf e).filter
    (fun c => c.tag == "counter" && c.attrs.lookup "type" == some kind)

/-- The numeric value of an attribute, for spec-side sums (the
well-formedness hypotheses guarantee the default is never taken). -/
def specAttrVal (e : Elem) (k : String) : ℕ :=
  ((e.attrs.lookup k).bind pyIntNonneg).getD 0

/-- Spec: covered counts of a kind summed over all counters anywhere in
the document. -/
def specCovered (kind : String) (e : Elem) : ℕ :=
  ((specCountersOf kind e).map (fun c => specAttrVal c "covered")).sum

/-- Spec: missed counts of a kind summed over all counters anywhere in the
document. -/
def specMissed (kind : String) (e : Elem) : ℕ :=
  ((specCountersOf kind e).map (fun c => specAttrVal c "missed")).sum

/-- Sum of an attribute over the counters of one kind in a raw element
list (the loop-level view of `specCovered` / `specMissed`). -/
def sumAttr (kind att : String) (l : List Elem) : ℕ :=
  ((l.filter (fun c => c.attrs.lookup "type" == some kind)).map
    (fun c => specAttrVal c att)).sum

/-- Spec: `round(100 * covered / (covered + missed), 2)` over the summed
counts of a kind, `0.0` when there is nothing to count. -/
def specPct (kind : String) (e : Elem) : ℚ :=
  if specCovered kind e + specMissed kind e = 0 then 0
  else round2pct (specCovered kind e) (specMissed kind e)

/-- Spec: the percentage of a single counter element. -/
def specCounterPct (c : Elem) : ℚ :=
  if specAttrVal c "covered" + specAttrVal c "missed" = 0 then 0
  else round2pct (specAttrVal c "covered") (specAttrVal c "missed")

/-- Spec (amended form): the class line coverage read from the first
`LINE` counter among all descendant counters of the class, in document
order; `0.0` when the class has none. -/
def specLineCov (cls : Elem) : ℚ :=
  match (specCountersOf "LINE" cls).head? with
  | none => 0
  | some c => specCounterPct c

/-- Spec (claim C3 as stated): the class line coverage read from the first
`LINE` counter among the class's direct children only. -/
def specLineCovDirect (cls : Elem) : ℚ :=
  match (cls.children.filter
      (fun c => c.tag == "counter" && c.attrs.lookup "type" == some "LINE")).head? with
  | none => 0
  | some c => specCounterPct c

/-- The class elements of the report in document order. -/
def specClasses (root : Elem) : List Elem :=
  (descendantsOf root).filter (fun e => e.tag == "class")

/-- Spec: the dotted name of a class element. -/
def specName (cls : Elem) : String :=
  dotted ((cls.attrs.lookup "name").getD "")

/-- Spec: one coverage record per class element, in document order. -/
def specRecords (root : Elem) : List (String × ℚ) :=
  (specClasses root).map (fun cls => (specName cls, specLineCov cls))

/-! ## Well-formedness of a report

The code reads attributes with `attrib[...]` and `int(...)`; these
decidable predicates say that every read the loops perform succeeds, as it
does on a JaCoCo report. -/

/-- A counter element is well formed when its `type` attribute exists and,
for the two kinds that are read, `covered` and `missed` parse as decimal
numerals. -/
def wfCounter (c : Elem) : Bool :=
  match c.attrs.lookup "type" with
  | none => false
  | some t =>
    if t = "LINE" ∨ t = "BRANCH" then
      ((c.attrs.lookup "covered").bind pyIntNonneg).isSome &&
      ((c.attrs.lookup "missed").bind pyIntNonneg).isSome
    else true

/-- Every counter anywhere in the report is well formed. -/
def wfReport (root : Elem) : Bool :=
  (iterfindCounter root).all wfCounter

/-- Every class element has a `name` attribute and well-formed descendant
counters. -/
def wfClasses (root : Elem) : Bool :=
  (specClasses root).all
    (fun cls => (cls.attrs.lookup "name").isSome && (iterfindCounter cls).all wfCounter)

/-- A counter element literal (shared by the concrete witness reports). -/
def cntE (t cov mis : String) : Elem :=
  .mk "counter" [("type", t), ("covered", cov), ("missed", mis)] []

/-- A report whose only counter is a LINE counter 8/2. -/
def rpt80 : Elem := .mk "report" [] [cntE "LINE" "8" "2"]


/-! ## Claim-side definitions for the expression evaluator -/

/-- Claim-side: the parsed form contains a node kind outside
{Number, UnaryOp, BinOp}, or an operator outside the allow-list
{add, subtract, multiply, divide, power, negate}. -/
def badExpr : PyExpr → Bool
  | .num _ => false
  | .unaryOp o e => !(o == .uSub) || badExpr e
  | .binOp l o r =>
    !(o == .add || o == .sub || o == .mult || o == .div || o == .pow) ||
      badExpr l || badExpr r
  | .other _ => true

/-- Claim-side: the result is the `UnsupportedExpression` failure of the
spec's error taxonomy — the `ValueError` raised for a disallowed node
kind, or the `KeyError` raised by the allow-list lookup for a disallowed
operator. -/
def isUnsupportedFailure : Except PyErr PyNum → Bool
  | .error .keyError => true
  | .error (.valueError _) => true
  | _ => false

/-- Whether an evaluation failed (raised any exception). -/
def isFailure : Except PyErr PyNum → Bool
  | .error _ => true
  | .ok _ => false

/-- Spec-side: the mathematically correct value of a valid arithmetic
expression (numeric literals, `+ - * / **`, unary minus), when it exists
as an exact rational: division requires a nonzero divisor, and a power
requires an integer exponent (with a nonzero base when the exponent is
negative). -/
def mathEval : PyExpr → Option ℚ
  | .num v => some v.toQ
  | .unaryOp .uSub e => do
    let a ← mathEval e
    some (-a)
  | .unaryOp _ _ => none
  | .binOp l o r => do
    let a ← mathEval l
    let b ← mathEval r
    match o with
    | .add => some (a + b)
    | .sub => some (a - b)
    | .mult => some (a * b)
    | .div => if b = 0 then none else some (a / b)
    | .pow =>
      if b.den = 1 then
        if a = 0 ∧ b.num < 0 then none else some (a ^ b.num)
      else none
    | _ => none
  | .other _ => none

/-! ## Concrete inputs used by witnesses and counterexamples -/

/-- `1 + 2 * 3`. -/
def exprSum : PyExpr :=
  .binOp (.num (.vint 1)) .add (.binOp (.num (.vint 2)) .mult (.num (.vint 3)))

/-- `2 ** 10`. -/
def exprPow : PyExpr := .binOp (.num (.vint 2)) .pow (.num (.vint 10))

/-- `-3 + 4`. -/
def exprNegAdd : PyExpr :=
  .binOp (.unaryOp .uSub (.num (.vint 3))) .add (.num (.vint 4))

/-- `1 / 0 + x`: its parse tree contains a disallowed `Name` node, yet
evaluation dies of `ZeroDivisionError` before reaching it. -/
def exprDivZeroName : PyExpr :=
  .binOp (.binOp (.num (.vint 1)) .div (.num (.vint 0))) .add (.other .name)

/-- `__import__("os")` parses to a `Call` node. -/
def exprCall : PyExpr := .other .call

/-- `1 and 2` parses to a `BoolOp` node. -/
def exprBoolOp : PyExpr := .other .boolOp

/-- `1 % 2`: a binary operator outside the allow-list. -/
def exprMod : PyExpr := .binOp (.num (.vint 1)) .mod (.num (.vint 2))

/-- A class element literal. -/
def clsE (nm : String) (cs : List Elem) : Elem := .mk "class" [("name", nm)] cs

/-- A class whose first `LINE` counter in document order (50%) is nested
inside a `method` child, while its direct-child `LINE` counter says 80%. -/
def clsNested : Elem :=
  clsE "com/x/C" [.mk "method" [] [cntE "LINE" "5" "5"], cntE "LINE" "8" "2"]

/-- A well-formed class used as a plain witness input: one direct `LINE`
counter 3/1 (75%). -/
def clsPlain : Elem := clsE "com/x/D" [cntE "LINE" "3" "1"]

/-- A report with counters at two nesting levels (class level and method
level), so that summing every counter double-counts: LINE totals 6/2. -/
def rptDouble : Elem :=
  .mk "report" []
    [.mk "package" []
      [clsE "com/x/C" [.mk "method" [] [cntE "LINE" "3" "1"], cntE "LINE" "3" "1"]]]

/-- Three classes at 95% / 60% / 80% line coverage. -/
def rptThree : Elem :=
  .mk "report" []
    [clsE "p/A" [cntE "LINE" "19" "1"],
     clsE "p/B" [cntE "LINE" "6" "4"],
     clsE "p/C" [cntE "LINE" "8" "2"]]

/-- A report whose single class has a `BRANCH` counter but no `LINE`
counter at all. -/
def rptNoLine : Elem := .mk "report" [] [clsE "p/D" [cntE "BRANCH" "1" "1"]]

/-!
# Theorems
-/

/-- Unfolding lemma for the `Except` monad: bind on a success. -/
theorem exceptBind_ok {ε α β : Type} (a : α) (f : α → Except ε β) :
    (Except.ok a >>= f) = f a := rfl

/-- Unfolding lemma for the `Except` monad: bind on a failure. -/
theorem exceptBind_error {ε α β : Type} (e : ε) (f : α → Except ε β) :
    ((Except.error e : Except ε α) >>= f) = Except.error e := rfl

/-! ### Operator soundness against the mathematical semantics -/

/-- `operator.add` computes the rational sum. -/
theorem pyAdd_sound (v w : PyNum) : ∃ u, pyAdd v w = .ok u ∧ u.toQ = v.toQ + w.toQ := by
  cases v <;> cases w <;> exact ⟨_, rfl, by simp [PyNum.toQ]⟩

/-- `operator.sub` computes the rational difference. -/
theorem pySub_sound (v w : PyNum) : ∃ u, pySub v w = .ok u ∧ u.toQ = v.toQ - w.toQ := by
  cases v <;> cases w <;> exact ⟨_, rfl, by simp [PyNum.toQ]⟩

/-- `operator.mul` computes the rational product. -/
theorem pyMul_sound (v w : PyNum) : ∃ u, pyMul v w = .ok u ∧ u.toQ = v.toQ * w.toQ := by
  cases v <;> cases w <;> exact ⟨_, rfl, by simp [PyNum.toQ]⟩

/-- `operator.neg` computes the rational negation. -/
theorem pyNeg_sound (v : PyNum) : ∃ u, pyNeg v = .ok u ∧ u.toQ = -v.toQ := by
  cases v <;> exact ⟨_, rfl, by simp [PyNum.toQ]⟩

/-- `operator.truediv` computes the rational quotient when the divisor is
nonzero. -/
theorem pyDiv_sound (v w : PyNum) (h : w.toQ ≠ 0) :
    pyDiv v w = .ok (.vfloat (v.toQ / w.toQ)) := by
  simp [pyDiv, h]

/-- `operator.pow` computes the rational power for an integer exponent
(with a nonzero base when the exponent is negative). -/
theorem pyPow_sound (v w : PyNum) (hden : w.toQ.den = 1)
    (hnz : ¬(v.toQ = 0 ∧ w.toQ.num < 0)) :
    ∃ u, pyPow v w = .ok u ∧ u.toQ = v.toQ ^ w.toQ.num := by
  cases v with
  | vint a =>
    cases w with
    | vint b =>
      rcases le_or_lt 0 b with hb | hb
      · refine ⟨.vint (a ^ b.toNat), by simp [pyPow, hb], ?_⟩
        simp only [PyNum.toQ, Rat.num_intCast]
        push_cast
        rw [← zpow_natCast, Int.toNat_of_nonneg hb]
      · have ha : a ≠ 0 := by
          intro h0
          exact hnz ⟨by simp [PyNum.toQ, h0], by simpa [PyNum.toQ] using hb⟩
        refine ⟨.vfloat ((a : ℚ) ^ b), ?_, by simp [PyNum.toQ]⟩
        simp [pyPow, not_le.mpr hb, ha]
    | vfloat qb =>
      refine ⟨.vfloat ((a : ℚ) ^ qb.num), ?_, by simp [PyNum.toQ]⟩
      simp only [pyPow, PyNum.toQ]
      split_ifs with h1 h2
      · exact absurd h2 (by simpa [PyNum.toQ] using hnz)
      · rfl
      · exact absurd (by simpa [PyNum.toQ] using hden) h1
  | vfloat qa =>
    cases w with
    | vint b =>
      refine ⟨.vfloat (qa ^ (((b : ℤ) : ℚ)).num), ?_, by simp [PyNum.toQ]⟩
      simp only [pyPow, PyNum.toQ]
      split_ifs with h1 h2
      · exact absurd h2 (by simpa [PyNum.toQ] using hnz)
      · rfl
      · exact absurd (by simp [PyNum.toQ]) h1
    | vfloat qb =>
      refine ⟨.vfloat (qa ^ qb.num), ?_, by simp [PyNum.toQ]⟩
      simp only [pyPow, PyNum.toQ]
      split_ifs with h1 h2
      · exact absurd h2 (by simpa [PyNum.toQ] using hnz)
      · rfl
      · exact absurd (by simpa [PyNum.toQ] using hden) h1

/-- `_eval` refines the mathematical semantics: whenever the expression
has a mathematically correct exact value, `_eval` succeeds with a number
of that value. -/
theorem pyEval_sound : ∀ (t : PyExpr) (q : ℚ), mathEval t = some q →
    ∃ v, pyEval t = .ok v ∧ v.toQ = q := by
  intro t
  induction t with
  | num v =>
    intro q h
    exact ⟨v, rfl, by simpa [mathEval] using h⟩
  | unaryOp o e ih =>
    intro q h
    cases o with
    | uSub =>
      rw [show mathEval (.unaryOp .uSub e) =
        (mathEval e).bind (fun a => some (-a)) from rfl] at h
      obtain ⟨a, ha, hq⟩ := Option.bind_eq_some.mp h
      obtain ⟨v, hv, hvq⟩ := ih a ha
      obtain ⟨u, hu, huq⟩ := pyNeg_sound v
      refine ⟨u, ?_, ?_⟩
      · simp [pyEval, ALLOWED_unary, hv, exceptBind_ok, hu]
      · simp only [Option.some.injEq] at hq
        rw [huq, hvq, hq]
    | uAdd => simp [mathEval] at h
    | boolNot => simp [mathEval] at h
    | invert => simp [mathEval] at h
  | binOp l o r ihl ihr =>
    intro q h
    rw [show mathEval (.binOp l o r) =
      (mathEval l).bind (fun a => (mathEval r).bind (fun b =>
        match o with
        | .add => some (a + b)
        | .sub => some (a - b)
        | .mult => some (a * b)
        | .div => if b = 0 then none else some (a / b)
        | .pow =>
          if b.den = 1 then
            if a = 0 ∧ b.num < 0 then none else some (a ^ b.num)
          else none
        | _ => none)) from rfl] at h
    obtain ⟨a, ha, h⟩ := Option.bind_eq_some.mp h
    obtain ⟨b, hb, h⟩ := Option.bind_eq_some.mp h
    obtain ⟨v, hv, hvq⟩ := ihl a ha
    obtain ⟨w, hw, hwq⟩ := ihr b hb
    cases o with
    | add =>
      obtain ⟨u, hu, huq⟩ := pyAdd_sound v w
      refine ⟨u, by simp [pyEval, ALLOWED_binary, hv, hw, exceptBind_ok, hu], ?_⟩
      simp only [Option.some.injEq] at h
      rw [huq, hvq, hwq, h]
    | sub =>
      obtain ⟨u, hu, huq⟩ := pySub_sound v w
      refine ⟨u, by simp [pyEval, ALLOWED_binary, hv, hw, exceptBind_ok, hu], ?_⟩
      simp only [Option.some.injEq] at h
      rw [huq, hvq, hwq, h]
    | mult =>
      obtain ⟨u, hu, huq⟩ := pyMul_sound v w
      refine ⟨u, by simp [pyEval, ALLOWED_binary, hv, hw, exceptBind_ok, hu], ?_⟩
      simp only [Option.some.injEq] at h
      rw [huq, hvq, hwq, h]
    | div =>
      by_cases hz : b = 0
      · simp [hz] at h
      · simp only [if_neg hz, Option.some.injEq] at h
        have := pyDiv_sound v w (by rw [hwq]; exact hz)
        refine ⟨.vfloat (v.toQ / w.toQ),
          by simp [pyEval, ALLOWED_binary, hv, hw, exceptBind_ok, this], ?_⟩
        rw [PyNum.toQ, hvq, hwq, h]
    | pow =>
      by_cases hden : b.den = 1
      · by_cases hneg : a = 0 ∧ b.num < 0
        · simp [hden, hneg] at h
        · simp only [if_pos hden, if_neg hneg, Option.some.injEq] at h
          obtain ⟨u, hu, huq⟩ := pyPow_sound v w (by rw [hwq]; exact hden)
            (by rw [hvq, hwq]; exact hneg)
          refine ⟨u, by simp [pyEval, ALLOWED_binary, hv, hw, exceptBind_ok, hu], ?_⟩
          rw [huq, hvq, hwq, h]
      · simp [hden] at h
    | mod => simp at h
    | floorDiv => simp at h
    | matMult => simp at h
    | lShift => simp at h
    | rShift => simp at h
    | bitOr => simp at h
    | bitXor => simp at h
    | bitAnd => simp at h
  | other k =>
    intro q h
    simp [mathEval] at h

/-- A failing `_eval` makes `calc` fail (the `float(...)` wrapper cannot
recover). -/
theorem isFailure_calcEval (t : PyExpr) (h : isFailure (pyEval t) = true) :
    isFailure (calcEval t) = true := by
  cases hp : pyEval t with
  | ok v => rw [hp] at h; simp [isFailure] at h
  | error e => simp [calcEval, hp, exceptBind_error, isFailure]

/-- A hit in the binary `_ALLOWED` table means the operator is in the
allow-list. -/
theorem allowed_binary_mem (o : BinOp) (f : PyNum → PyNum → Except PyErr PyNum)
    (h : ALLOWED_binary o = some f) :
    (o == .add || o == .sub || o == .mult || o == .div || o == .pow) = true := by
  cases o <;> simp_all [ALLOWED_binary]

/-- `_eval` fails on every expression containing a disallowed node kind or
operator. -/
theorem pyEval_fails_of_badExpr : ∀ t : PyExpr, badExpr t = true →
    isFailure (pyEval t) = true := by
  intro t
  induction t with
  | num v => intro h; simp [badExpr] at h
  | unaryOp o e ih =>
    intro h
    cases ho : ALLOWED_unary o with
    | none => simp [pyEval, ho, isFailure]
    | some f =>
      have huS : o = .uSub := by cases o <;> simp_all [ALLOWED_unary]
      subst huS
      simp only [badExpr, beq_self_eq_true, Bool.not_true, Bool.false_or] at h
      have he := ih h
      cases hp : pyEval e with
      | ok v => rw [hp] at he; simp [isFailure] at he
      | error err => simp [pyEval, ho, hp, exceptBind_error, isFailure]
  | binOp l o r ihl ihr =>
    intro h
    cases hA : ALLOWED_binary o with
    | none => simp [pyEval, hA, isFailure]
    | some f =>
      have hmem := allowed_binary_mem o f hA
      simp only [badExpr, hmem, Bool.not_true, Bool.false_or] at h
      by_cases hl : badExpr l = true
      · have hfl := ihl hl
        cases hp : pyEval l with
        | ok v => rw [hp] at hfl; simp [isFailure] at hfl
        | error err => simp [pyEval, hA, hp, exceptBind_error, isFailure]
      · simp only [Bool.not_eq_true] at hl
        rw [hl, Bool.false_or] at h
        have hfr := ihr h
        cases hp : pyEval l with
        | error err => simp [pyEval, hA, hp, exceptBind_error, isFailure]
        | ok v =>
          cases hq : pyEval r with
          | ok w => rw [hq] at hfr; simp [isFailure] at hfr
          | error err =>
            simp [pyEval, hA, hp, hq, exceptBind_ok, exceptBind_error, isFailure]
  | other k => intro h; simp [pyEval, isFailure]

/-- C1 — counterexample to the claim as stated.  The expression
`1 / 0 + x` parses to a tree containing a disallowed `Name` node, so the
claim asserts the `UnsupportedExpression` failure; but `_eval` evaluates
the left operand first and dies of `ZeroDivisionError`, which is not the
`UnsupportedExpression` failure of the spec's taxonomy. -/
theorem calc_unsupported_claim_cex :
    badExpr exprDivZeroName = true ∧
      calcEval exprDivZeroName = .error .zeroDivisionError ∧
      isUnsupportedFailure (calcEval exprDivZeroName) = false := by
  have h : calcEval exprDivZeroName = .error .zeroDivisionError := by
    simp [calcEval, pyEval, exprDivZeroName, ALLOWED_binary, pyDiv, PyNum.toQ,
      exceptBind_ok, exceptBind_error]
  exact ⟨rfl, h, by rw [h]; rfl⟩

/-- C1 (amended): for every input expression whose parsed form contains a
node kind outside {Number, UnaryOp, BinOp} or an operator outside the
allow-list, `calc`/`_eval` fails with an error and returns no value — the
`UnsupportedExpression` failure unless an earlier arithmetic error (such
as division by zero) aborts evaluation first.  The model is pure, so no
side effect can occur on any path. -/
theorem calc_rejects_disallowed (t : PyExpr) (h : badExpr t = true) :
    isFailure (calcEval t) = true :=
  isFailure_calcEval t (pyEval_fails_of_badExpr t h)

/-- Witness for `calc_rejects_disallowed`: a call node
(`__import__("os")`), a boolean operator (`1 and 2`) and a modulo
operator (`1 % 2`) all fail. -/
theorem calc_rejects_disallowed_witness :
    isFailure (calcEval exprCall) = true ∧
      isFailure (calcEval exprBoolOp) = true ∧
      isFailure (calcEval exprMod) = true :=
  ⟨calc_rejects_disallowed _ rfl, calc_rejects_disallowed _ rfl,
    calc_rejects_disallowed _ rfl⟩

/-- C2: for every valid arithmetic expression with a mathematically
correct exact value `q`, `calc` returns exactly `q`, and returns it as a
float (`vfloat`) regardless of the input literal types. -/
theorem calc_correct_on_valid_arith (t : PyExpr) (q : ℚ)
    (h : mathEval t = some q) : calcEval t = .ok (.vfloat q) := by
  obtain ⟨v, hv, hq⟩ := pyEval_sound t q h
  simp [calcEval, hv, exceptBind_ok, pyFloat, hq]

/-- Witness for `calc_correct_on_valid_arith`: `1+2*3 = 7.0`,
`2**10 = 1024.0`, `-3+4 = 1.0`. -/
theorem calc_correct_on_valid_arith_witness :
    calcEval exprSum = .ok (.vfloat 7) ∧
      calcEval exprPow = .ok (.vfloat 1024) ∧
      calcEval exprNegAdd = .ok (.vfloat 1) := by
  refine ⟨calc_correct_on_valid_arith _ _ ?_, calc_correct_on_valid_arith _ _ ?_,
    calc_correct_on_valid_arith _ _ ?_⟩
  · show mathEval exprSum = some 7
    simp [mathEval, exprSum, PyNum.toQ]
    norm_num
  · show mathEval exprPow = some 1024
    simp [mathEval, exprPow, PyNum.toQ]
    norm_num
  · show mathEval exprNegAdd = some 1
    simp [mathEval, exprNegAdd, PyNum.toQ]
    norm_num

/-! ### Counter-summation lemmas -/

/-- `int(elem.attrib[k])` succeeds exactly when the attribute is present
and parses. -/
theorem attrNat_eq_ok {c : Elem} {k : String} {n : ℕ}
    (h : (c.attrs.lookup k).bind pyIntNonneg = some n) : attrNat c k = .ok n := by
  obtain ⟨s, hs, hn⟩ := Option.bind_eq_some.mp h
  simp [attrNat, attrStr, hs, hn, exceptBind_ok]

/-- A counter of the matching kind contributes its attribute value. -/
theorem sumAttr_cons_hit (kind att : String) (c : Elem) (l : List Elem)
    (h : (c.attrs.lookup "type" == some kind) = true) :
    sumAttr kind att (c :: l) = specAttrVal c att + sumAttr kind att l := by
  simp [sumAttr, List.filter_cons, h]

/-- A counter of another kind contributes nothing. -/
theorem sumAttr_cons_miss (kind att : String) (c : Elem) (l : List Elem)
    (h : (c.attrs.lookup "type" == some kind) = false) :
    sumAttr kind att (c :: l) = sumAttr kind att l := by
  simp [sumAttr, List.filter_cons, h]

/-- A well-formed counter has a `type` attribute. -/
theorem wfCounter_has_type {c : Elem} (hc : wfCounter c = true) :
    ∃ t, c.attrs.lookup "type" = some t := by
  cases hT : c.attrs.lookup "type" with
  | none => simp [wfCounter, hT] at hc
  | some t => exact ⟨t, rfl⟩

/-- A well-formed counter of kind `LINE` or `BRANCH` has parsing
`covered` and `missed` attributes. -/
theorem wfCounter_kind {c : Elem} {t : String} (hc : wfCounter c = true)
    (hT : c.attrs.lookup "type" = some t) (ht : t = "LINE" ∨ t = "BRANCH") :
    ∃ cov mis, (c.attrs.lookup "covered").bind pyIntNonneg = some cov ∧
      (c.attrs.lookup "missed").bind pyIntNonneg = some mis := by
  simp only [wfCounter, hT, if_pos ht, Bool.and_eq_true,
    Option.isSome_iff_exists] at hc
  obtain ⟨⟨cov, hcov⟩, ⟨mis, hmis⟩⟩ := hc
  exact ⟨cov, mis, hcov, hmis⟩

/-- The summation loop of `maven_test_and_report`, fully characterized:
on well-formed counters it accumulates, per kind, the sums of `covered`
and `missed` over every counter in the list. -/
theorem foldCounters_eq (l : List Elem) (acc : Counters)
    (h : l.all wfCounter = true) :
    l.foldlM addCounter acc =
      .ok ⟨⟨acc.line.covered + sumAttr "LINE" "covered" l,
            acc.line.missed + sumAttr "LINE" "missed" l⟩,
           ⟨acc.branch.covered + sumAttr "BRANCH" "covered" l,
            acc.branch.missed + sumAttr "BRANCH" "missed" l⟩⟩ := by
  induction l generalizing acc with
  | nil => simp [sumAttr]; rfl
  | cons c l ih =>
    simp only [List.all_cons, Bool.and_eq_true] at h
    obtain ⟨hc, hl⟩ := h
    obtain ⟨t, hT⟩ := wfCounter_has_type hc
    by_cases htL : t = "LINE"
    · subst htL
      obtain ⟨cov, mis, hcov, hmis⟩ := wfCounter_kind hc hT (Or.inl rfl)
      have haddc : addCounter acc c =
          .ok ⟨⟨acc.line.covered + cov, acc.line.missed + mis⟩, acc.branch⟩ := by
        simp [addCounter, attrStr, hT, exceptBind_ok, attrNat_eq_ok hcov,
          attrNat_eq_ok hmis]
      rw [List.foldlM_cons, haddc, exceptBind_ok, ih _ hl,
        sumAttr_cons_hit _ _ _ _ (by simp [hT]),
        sumAttr_cons_hit _ _ _ _ (by simp [hT]),
        sumAttr_cons_miss _ _ _ _ (by simp [hT]),
        sumAttr_cons_miss _ _ _ _ (by simp [hT])]
      have hc2 : specAttrVal c "covered" = cov := by simp [specAttrVal, hcov]
      have hm2 : specAttrVal c "missed" = mis := by simp [specAttrVal, hmis]
      rw [hc2, hm2]
      simp [Nat.add_assoc]
    · by_cases htB : t = "BRANCH"
      · subst htB
        obtain ⟨cov, mis, hcov, hmis⟩ := wfCounter_kind hc hT (Or.inr rfl)
        have haddc : addCounter acc c =
            .ok ⟨acc.line, ⟨acc.branch.covered + cov, acc.branch.missed + mis⟩⟩ := by
          simp [addCounter, attrStr, hT, exceptBind_ok, attrNat_eq_ok hcov,
            attrNat_eq_ok hmis]
        rw [List.foldlM_cons, haddc, exceptBind_ok, ih _ hl,
          sumAttr_cons_miss _ _ _ _ (by simp [hT]),
          sumAttr_cons_miss _ _ _ _ (by simp [hT]),
          sumAttr_cons_hit _ _ _ _ (by simp [hT]),
          sumAttr_cons_hit _ _ _ _ (by simp [hT])]
        have hc2 : specAttrVal c "covered" = cov := by simp [specAttrVal, hcov]
        have hm2 : specAttrVal c "missed" = mis := by simp [specAttrVal, hmis]
        rw [hc2, hm2]
        simp [Nat.add_assoc]
      · have haddc : addCounter acc c = .ok acc := by
          simp [addCounter, attrStr, hT, exceptBind_ok, htL, htB]
        rw [List.foldlM_cons, haddc, exceptBind_ok, ih _ hl,
          sumAttr_cons_miss _ _ _ _ (by simp [hT, htL]),
          sumAttr_cons_miss _ _ _ _ (by simp [hT, htL]),
          sumAttr_cons_miss _ _ _ _ (by simp [hT, htB]),
          sumAttr_cons_miss _ _ _ _ (by simp [hT, htB])]

/-- Filtering `iterfind(".//counter")` by kind is the spec's counter
selection. -/
theorem filter_iterfind_eq (kind : String) (e : Elem) :
    (iterfindCounter e).filter (fun c => c.attrs.lookup "type" == some kind) =
      specCountersOf kind e := by
  rw [iterfindCounter, specCountersOf, List.filter_filter]
  congr 1
  funext c
  exact Bool.and_comm _ _

/-- Loop-level covered sums agree with the spec-level ones. -/
theorem sumAttr_iterfind_covered (kind : String) (e : Elem) :
    sumAttr kind "covered" (iterfindCounter e) = specCovered kind e := by
  rw [sumAttr, filter_iterfind_eq, specCovered]

/-- Loop-level missed sums agree with the spec-level ones. -/
theorem sumAttr_iterfind_missed (kind : String) (e : Elem) :
    sumAttr kind "missed" (iterfindCounter e) = specMissed kind e := by
  rw [sumAttr, filter_iterfind_eq, specMissed]

/-- `sumCounters` on a well-formed report: per-kind totals over every
counter in the document. -/
theorem sumCounters_eq (root : Elem) (h : wfReport root = true) :
    sumCounters root = .ok ⟨⟨specCovered "LINE" root, specMissed "LINE" root⟩,
      ⟨specCovered "BRANCH" root, specMissed "BRANCH" root⟩⟩ := by
  rw [sumCounters, foldCounters_eq _ _ h]
  simp [sumAttr_iterfind_covered, sumAttr_iterfind_missed]

/-- C5: the aggregation in `maven_test_and_report` sums covered and
missed independently per kind (LINE, BRANCH) across all counter elements
found anywhere in the report document, regardless of nesting scope —
report, package, class and method counters are all included, even when
this double-counts. -/
theorem summary_sums_all_counters (root : Elem) (h : wfReport root = true) :
    sumCounters root = .ok ⟨⟨specCovered "LINE" root, specMissed "LINE" root⟩,
      ⟨specCovered "BRANCH" root, specMissed "BRANCH" root⟩⟩ :=
  sumCounters_eq root h

/-- Witness for `summary_sums_all_counters`: with identical 3/1 LINE
counters at method level and class level, the sums double-count to 6/2. -/
theorem summary_sums_all_counters_witness :
    wfReport rptDouble = true ∧
      sumCounters rptDouble = .ok ⟨⟨6, 2⟩, ⟨0, 0⟩⟩ := by
  have hwf : wfReport rptDouble = true := by
    simp [wfReport, iterfindCounter, descendantsOf, descAll, rptDouble, clsE, cntE,
      Elem.children, Elem.tag, Elem.attrs, wfCounter, List.lookup, pyIntNonneg,
      decNatCore, digitVal]
  refine ⟨hwf, ?_⟩
  rw [summary_sums_all_counters rptDouble hwf]
  simp [specCovered, specMissed, specCountersOf, specAttrVal, descendantsOf,
    descAll, rptDouble, clsE, cntE, Elem.children, Elem.tag, Elem.attrs,
    List.lookup, pyIntNonneg, decNatCore, digitVal]

/-- C6: for each kind, the summary percentage produced by
`maven_test_and_report` is `round(100 * covered / (covered + missed), 2)`
over the summed counts, and `0.0` when `covered + missed = 0` (no
division-by-zero fault). -/
theorem summary_pct_formula (root : Elem) (rc : ℤ) (h : wfReport root = true) :
    maven_test_and_report rc (some root) =
      .ok ⟨rc, [("line_coverage_pct", specPct "LINE" root),
                ("branch_coverage_pct", specPct "BRANCH" root)]⟩ := by
  simp only [maven_test_and_report]
  rw [sumCounters_eq root h, exceptBind_ok]
  rfl

/-- Witness for `summary_pct_formula`: a report whose only LINE counter is
8/2 yields `line_coverage_pct = 80.0`, and the absent BRANCH kind yields
`0.0` rather than a division-by-zero fault. -/
theorem summary_pct_formula_witness :
    wfReport rpt80 = true ∧
      maven_test_and_report 0 (some rpt80) =
        .ok ⟨0, [("line_coverage_pct", 80), ("branch_coverage_pct", 0)]⟩ := by
  have hwf : wfReport rpt80 = true := by
    simp [wfReport, iterfindCounter, descendantsOf, descAll, rpt80, cntE,
      Elem.children, Elem.tag, Elem.attrs, wfCounter, List.lookup, pyIntNonneg,
      decNatCore, digitVal]
  refine ⟨hwf, ?_⟩
  rw [summary_pct_formula rpt80 0 hwf]
  simp [specPct, specCovered, specMissed, specCountersOf, specAttrVal,
    descendantsOf, descAll, rpt80, cntE, Elem.children, Elem.tag, Elem.attrs,
    List.lookup, pyIntNonneg, decNatCore, digitVal, round2pct, roundHalfEven]
  norm_num

/-- C4 — counterexample to the claim as stated.  With a missing report
and exit code 1, `maven_test_and_report` returns an EMPTY summary dict,
not a zero-valued one: the claimed result, a summary carrying zero-valued
coverage percentages, is a different value. -/
theorem missing_report_zero_summary_cex :
    maven_test_and_report 1 none = .ok ⟨1, []⟩ ∧
      maven_test_and_report 1 none ≠
        .ok ⟨1, [("line_coverage_pct", 0), ("branch_coverage_pct", 0)]⟩ := by
  refine ⟨rfl, ?_⟩
  intro hcon
  rw [show maven_test_and_report 1 none = .ok ⟨1, []⟩ from rfl] at hcon
  simp at hcon

/-- C4 (amended): when the coverage report file does not exist,
`maven_test_and_report` raises no exception: it returns the build
command's exit code together with an EMPTY coverage summary (a summary
with no entries), and only that exit code signals the failure. -/
theorem missing_report_returns_empty_summary (rc : ℤ) :
    maven_test_and_report rc none = .ok ⟨rc, []⟩ := rfl

/-- C8: whenever the coverage report file does not exist,
`uncovered_classes` fails with the `RuntimeError` telling the caller to
run `maven_test_and_report` first. -/
theorem uncovered_classes_missing_report_error (th : ℚ) :
    uncovered_classes th none =
      .error (.runtimeError "Run maven_test_and_report first.") := rfl

/-- The first-LINE-counter loop, characterized on well-formed counters:
it returns the rounded percentage of the first counter of type LINE in
the list, `0.0` when there is none. -/
theorem firstLineCov_eq (l : List Elem) (h : l.all wfCounter = true) :
    firstLineCov l = .ok
      (match (l.filter (fun c => c.attrs.lookup "type" == some "LINE")).head? with
       | none => 0
       | some c => specCounterPct c) := by
  induction l with
  | nil => rfl
  | cons c l ih =>
    simp only [List.all_cons, Bool.and_eq_true] at h
    obtain ⟨hc, hl⟩ := h
    obtain ⟨t, hT⟩ := wfCounter_has_type hc
    by_cases htL : t = "LINE"
    · subst htL
      obtain ⟨cov, mis, hcov, hmis⟩ := wfCounter_kind hc hT (Or.inl rfl)
      have h1 : firstLineCov (c :: l) =
          .ok (if cov + mis = 0 then 0 else round2pct cov mis) := by
        simp [firstLineCov, attrStr, hT, exceptBind_ok, attrNat_eq_ok hcov,
          attrNat_eq_ok hmis]
      rw [h1, List.filter_cons_of_pos (by simp [hT])]
      simp [specCounterPct, specAttrVal, hcov, hmis]
    · have h1 : firstLineCov (c :: l) = firstLineCov l := by
        simp [firstLineCov, attrStr, hT, exceptBind_ok, htL]
      rw [h1, ih hl, List.filter_cons_of_neg (by simp [hT, htL])]

/-- The class line coverage computed by the code equals the spec path:
the first LINE counter among ALL descendant counters, in document order. -/
theorem classLineCov_eq (cls : Elem)
    (h : (iterfindCounter cls).all wfCounter = true) :
    classLineCov cls = .ok (specLineCov cls) := by
  rw [classLineCov, firstLineCov_eq _ h, filter_iterfind_eq]
  rfl

/-- C3 — counterexample to the claim as stated.  `clsNested` holds a
`LINE` counter 5/5 nested inside a `method` child before its direct-child
`LINE` counter 8/2.  The claim ("first LINE counter found directly under
that class element") predicts 80.0, but the code searches descendants
recursively (`.//counter`) and takes the method-level counter first,
yielding 50.0. -/
theorem class_line_counter_direct_cex :
    classLineCov clsNested = .ok 50 ∧ specLineCovDirect clsNested = 80 ∧
      (50 : ℚ) ≠ 80 := by
  refine ⟨?_, ?_, by norm_num⟩
  · simp [classLineCov, firstLineCov, iterfindCounter, descendantsOf, descAll,
      clsNested, clsE, cntE, Elem.children, Elem.tag, Elem.attrs, attrStr, attrNat,
      List.lookup, pyIntNonneg, decNatCore, digitVal, exceptBind_ok, round2pct,
      roundHalfEven]
    norm_num
  · simp [specLineCovDirect, clsNested, clsE, cntE, Elem.children, Elem.tag,
      Elem.attrs, List.lookup, specCounterPct, specAttrVal, pyIntNonneg,
      decNatCore, digitVal, round2pct, roundHalfEven]
    norm_num

/-- C3 (amended): for every well-formed class element, the listing
computes the class's line coverage from the FIRST `LINE` counter found
among all the class's descendant counters in document order — a single
counter, first match at any depth, not a recursive sum and not
necessarily a direct child — using the percentage formula
`round(100 * covered / (covered + missed), 2)` (0.0 for an empty
denominator). -/
theorem class_line_cov_first_descendant (cls : Elem)
    (h : (iterfindCounter cls).all wfCounter = true) :
    classLineCov cls = .ok (specLineCov cls) :=
  classLineCov_eq cls h

/-- Witness for `class_line_cov_first_descendant`: a class with one LINE
counter 3/1 gets 75.0. -/
theorem class_line_cov_first_descendant_witness :
    (iterfindCounter clsPlain).all wfCounter = true ∧
      classLineCov clsPlain = .ok (specLineCov clsPlain) ∧
      specLineCov clsPlain = 75 := by
  have hwf : (iterfindCounter clsPlain).all wfCounter = true := by
    simp [iterfindCounter, descendantsOf, descAll, clsPlain, clsE, cntE,
      Elem.children, Elem.tag, Elem.attrs, wfCounter, List.lookup, pyIntNonneg,
      decNatCore, digitVal]
  refine ⟨hwf, class_line_cov_first_descendant clsPlain hwf, ?_⟩
  simp [specLineCov, specCountersOf, specCounterPct, specAttrVal,
    descendantsOf, descAll, clsPlain, clsE, cntE, Elem.children, Elem.tag,
    Elem.attrs, List.lookup, pyIntNonneg, decNatCore, digitVal, round2pct,
    roundHalfEven]
  norm_num

/-- One class-loop step, characterized: append the record exactly when
its coverage is strictly below the threshold. -/
theorem classStep_eq (th : ℚ) (low : List (String × ℚ)) (c : Elem) (nm : String)
    (hnm : c.attrs.lookup "name" = some nm)
    (hwfc : (iterfindCounter c).all wfCounter = true) :
    classStep th low c =
      if specLineCov c < th then .ok (low ++ [(specName c, specLineCov c)])
      else .ok low := by
  have hn : specName c = dotted nm := by simp [specName, hnm]
  simp [classStep, attrStr, hnm, exceptBind_ok, classLineCov_eq c hwfc, hn]

/-- The class loop of `uncovered_classes`, fully characterized on
well-formed classes: it appends, in document order, one record per class
whose line coverage is strictly below the threshold. -/
theorem foldClasses_eq (th : ℚ) (l : List Elem) (low : List (String × ℚ))
    (h : l.all (fun cls => (cls.attrs.lookup "name").isSome &&
      (iterfindCounter cls).all wfCounter) = true) :
    l.foldlM (classStep th) low =
      .ok (low ++ (l.map (fun cls => (specName cls, specLineCov cls))).filter
        (fun p => decide (p.2 < th))) := by
  induction l generalizing low with
  | nil => simp; rfl
  | cons c l ih =>
    simp only [List.all_cons, Bool.and_eq_true] at h
    obtain ⟨⟨hname, hwfc⟩, hl⟩ := h
    obtain ⟨nm, hnm⟩ := Option.isSome_iff_exists.mp hname
    rw [List.foldlM_cons, classStep_eq th low c nm hnm hwfc]
    by_cases hlt : specLineCov c < th
    · rw [if_pos hlt, exceptBind_ok, ih _ hl]
      simp [List.filter_cons, hlt]
    · rw [if_neg hlt, exceptBind_ok, ih _ hl]
      simp [List.filter_cons, hlt]

/-- `uncovered_classes` on a well-formed report: exactly the
strictly-below-threshold classes, in document order. -/
theorem uc_eq (th : ℚ) (root : Elem) (h : wfClasses root = true) :
    uncovered_classes th (some root) =
      .ok ((specRecords root).filter (fun p => decide (p.2 < th))) := by
  simp only [uncovered_classes]
  have := foldClasses_eq th (specClasses root) [] h
  simpa [specRecords, specClasses] using this

/-- C7: `uncovered_classes` returns exactly the classes whose line
coverage percentage is strictly less than the threshold (a class exactly
at the threshold is excluded), and the returned sequence preserves the
document order of the class elements. -/
theorem uncovered_classes_strict_order (th : ℚ) (root : Elem)
    (h : wfClasses root = true) :
    uncovered_classes th (some root) =
      .ok ((specRecords root).filter (fun p => decide (p.2 < th))) :=
  uc_eq th root h

/-- Witness for `uncovered_classes_strict_order`: with threshold 80.0 and
classes at 95.0 / 60.0 / 80.0, exactly the class at 60.0 is returned. -/
theorem uncovered_classes_strict_order_witness :
    wfClasses rptThree = true ∧
      uncovered_classes 80 (some rptThree) = .ok [("p.B", 60)] := by
  have hwf : wfClasses rptThree = true := by
    simp [wfClasses, specClasses, iterfindCounter, descendantsOf, descAll,
      rptThree, clsE, cntE, Elem.children, Elem.tag, Elem.attrs, wfCounter,
      List.lookup, pyIntNonneg, decNatCore, digitVal]
  refine ⟨hwf, ?_⟩
  rw [uncovered_classes_strict_order 80 rptThree hwf]
  simp [specRecords, specClasses, specName, specLineCov, specCountersOf,
    specCounterPct, specAttrVal, descendantsOf, descAll, rptThree, clsE, cntE,
    Elem.children, Elem.tag, Elem.attrs, List.lookup, dotted, pyIntNonneg,
    decNatCore, digitVal, round2pct, roundHalfEven]
  norm_num

/-- C10: a class element with no `LINE` counter anywhere below it keeps
the initial `line_cov = 0.0`, so it is listed whenever the threshold is
positive. -/
theorem class_without_line_counter (root cls : Elem) (th : ℚ) (i : ℕ)
    (h : wfClasses root = true)
    (hm : (specClasses root)[i]? = some cls)
    (hnl : specCountersOf "LINE" cls = [])
    (hth : 0 < th) :
    classLineCov cls = .ok 0 ∧
      ∃ recs, uncovered_classes th (some root) = .ok recs ∧
        (specName cls, (0 : ℚ)) ∈ recs := by
  have hmem : cls ∈ specClasses root := List.getElem?_mem hm
  have hwfc : (iterfindCounter cls).all wfCounter = true := by
    have hall := (List.all_eq_true.mp h) cls hmem
    exact (Bool.and_eq_true _ _).mp hall |>.2
  have h0 : specLineCov cls = 0 := by
    simp [specLineCov, hnl]
  constructor
  · rw [classLineCov_eq cls hwfc, h0]
  · refine ⟨(specRecords root).filter (fun p => decide (p.2 < th)),
      uc_eq th root h, ?_⟩
    have hrec : (specName cls, specLineCov cls) ∈ specRecords root :=
      List.mem_map_of_mem _ hmem
    rw [h0] at hrec
    exact List.mem_filter.mpr ⟨hrec, by simpa using hth⟩

/-- Witness for `class_without_line_counter`: the single class of
`rptNoLine` has only a BRANCH counter; with threshold 50 it is listed at
0.0. -/
theorem class_without_line_counter_witness :
    classLineCov (clsE "p/D" [cntE "BRANCH" "1" "1"]) = .ok 0 ∧
      ∃ recs, uncovered_classes 50 (some rptNoLine) = .ok recs ∧
        (specName (clsE "p/D" [cntE "BRANCH" "1" "1"]), (0 : ℚ)) ∈ recs := by
  refine class_without_line_counter rptNoLine (clsE "p/D" [cntE "BRANCH" "1" "1"])
    50 0 ?_ ?_ ?_ (by norm_num)
  · simp [wfClasses, specClasses, iterfindCounter, descendantsOf, descAll,
      rptNoLine, clsE, cntE, Elem.children, Elem.tag, Elem.attrs, wfCounter,
      List.lookup, pyIntNonneg, decNatCore, digitVal]
  · simp [specClasses, descendantsOf, descAll, rptNoLine, clsE, cntE,
      Elem.children, Elem.tag]
  · simp [specCountersOf, descendantsOf, descAll, clsE, cntE, Elem.children,
      Elem.tag, Elem.attrs, List.lookup]

/-- The tail really is the last `n` characters: a suffix, of length
`min n (length s)`. -/
theorem strTail_spec (n : ℕ) (s : String) :
    (strTail n s).data <:+ s.data ∧ (strTail n s).length = min n s.length := by
  constructor
  · exact List.drop_suffix _ _
  · cases s with
    | mk data =>
      show (List.drop (data.length - n) data).length = min n data.length
      rw [List.length_drop]
      omega

/-- C9: the external build invocation (`maven_test_tool` through `_run`)
returns structured data for every exit code — the result always carries
`returncode` verbatim, and `stdout_tail` / `stderr_tail` are exactly the
last 2000 characters of the captured streams (all of a shorter stream,
the final 2000 characters of a longer one). -/
theorem maven_test_tool_structured (mvnPath tf : String) (proc : ProcOutcome) :
    (maven_test_tool mvnPath tf proc).returncode = proc.returncode ∧
      (maven_test_tool mvnPath tf proc).stdout_tail.data <:+
        (proc.stdout.getD "").data ∧
      (maven_test_tool mvnPath tf proc).stdout_tail.length =
        min 2000 (proc.stdout.getD "").length ∧
      (maven_test_tool mvnPath tf proc).stderr_tail.data <:+
        (proc.stderr.getD "").data ∧
      (maven_test_tool mvnPath tf proc).stderr_tail.length =
        min 2000 (proc.stderr.getD "").length :=
  ⟨rfl, (strTail_spec 2000 (proc.stdout.getD "")).1,
    (strTail_spec 2000 (proc.stdout.getD "")).2,
    (strTail_spec 2000 (proc.stderr.getD "")).1,
    (strTail_spec 2000 (proc.stderr.getD "")).2⟩
